import Mathlib

/-!
Shallow embedding of the 0x007E/oled repository's software TWI (I2C) master
transport (src/lib/hal/avr/twi_soft/twi_soft.c) and of the OLED display
protocol layer (src/lib/oled/oled.c).

The bit-banged transport is modelled as a trace-producing function: every
line manipulation (driving SCL/SDA low, releasing them high, the fixed
half-period delays, the busy-wait on clock stretching, and the two points
where the code samples the SDA input) is recorded as a wire event.  The
behaviour of other bus participants is an environment `TwiEnv` saying, for
each sample point, whether an external device pulls SDA low (the master has
released the line there, so the pin reads low exactly when the environment
pulls).  The display layer is modelled as explicit state passing of the
cursor pair together with the emitted bus-transaction events.
-/

/-- Wire-level events emitted by the bit-banged transport, in program order.
`arbCheck b` records the arbitration sample of the SDA input (`b` = line read
low); `ackRead b` records the acknowledge-bit sample (`b` = line read low). -/
inductive WireEv where
  | sclLow
  | sclHigh
  | sdaLow
  | sdaHigh
  | delay
  | stretchWait
  | arbCheck (low : Bool)
  | ackRead (low : Bool)
deriving DecidableEq

/-- Environment of the bus: whether an external device pulls SDA low at the
arbitration sample of bit `i`, and at the acknowledge sample. -/
structure TwiEnv where
  arbPull : Nat → Bool
  ackPull : Bool

/-- Modelled from the spec: the `TWI_Error` enumeration lives in
`common/enums/TWI_enums.h`, which is not under `src/`; the spec (section 3)
lists the bus statuses as None, Ack-failure, Arbitration-lost, Start-failure
and General-error. -/
inductive TWI_Error where
  | TWI_None
  | TWI_Ack
  | TWI_Arbitration
  | TWI_Start
  | TWI_General
deriving DecidableEq

/-- Modelled from the spec: the `TWI_Operation` enumeration lives in
`common/enums/TWI_enums.h`, which is not under `src/`; the spec (sections 3
and 8) says the direction is encoded into the low bit of the address byte,
with Write giving `0x3C -> 0x78`, hence Write = 0 and Read = 1. -/
inductive TWI_Operation where
  | TWI_Write
  | TWI_Read
deriving DecidableEq

/-- Modelled from the spec: numeric value of the operation direction
(see `TWI_Operation`). -/
def TWI_Operation.val : TWI_Operation → Nat
  | .TWI_Write => 0
  | .TWI_Read => 1

/-- `CHAR_BIT` from `<limits.h>`: bits per byte. -/
def CHAR_BIT : Nat := 8

/-- The bit transmitted at loop index `i` of `twi_soft_set`:
C computes `(data << i) & 0x80` (MSB first). -/
def bitOf (data i : Nat) : Bool := (data <<< i) &&& 0x80 != 0

/-- One iteration of the bit loop of `twi_soft_set` (twi_soft.c):
drive SCL low, put the bit on SDA, wait half a period, and when the bit is 1
sample SDA for arbitration — aborting with `TWI_Arbitration` when it reads
low — otherwise release SCL high, busy-wait out any clock stretching and
wait half a period. -/
def twi_soft_set_bit (env : TwiEnv) (data i : Nat) : Option TWI_Error × List WireEv :=
  if bitOf data i then
    if env.arbPull i then
      (some TWI_Error.TWI_Arbitration,
        [.sclLow, .sdaHigh, .delay, .arbCheck true])
    else
      (none,
        [.sclLow, .sdaHigh, .delay, .arbCheck false, .sclHigh, .stretchWait, .delay])
  else
    (none, [.sclLow, .sdaLow, .delay, .sclHigh, .stretchWait, .delay])

/-- The `for (i=0; i < CHAR_BIT; i++)` loop of `twi_soft_set`, with `fuel`
remaining iterations starting at index `i`; an abort propagates immediately
with the events emitted so far. -/
def twi_soft_set_loop (env : TwiEnv) (data : Nat) : Nat → Nat → Option TWI_Error × List WireEv
  | _, 0 => (none, [])
  | i, fuel + 1 =>
    match twi_soft_set_bit env data i with
    | (some e, tr) => (some e, tr)
    | (none, tr) =>
      let r := twi_soft_set_loop env data (i + 1) fuel
      (r.1, tr ++ r.2)

/-- `twi_soft_set` (twi_soft.c lines 156..211): shift the 8 data bits out,
then the acknowledge phase exactly as the C code orders it — `SCL_LOW()`,
`SDA_HIGH()`, delay, sample SDA (low gives `TWI_None`, high gives
`TWI_Ack`), `SCL_HIGH()`, delay — and return the status. -/
def twi_soft_set (env : TwiEnv) (data : Nat) : TWI_Error × List WireEv :=
  match twi_soft_set_loop env data 0 CHAR_BIT with
  | (some e, tr) => (e, tr)
  | (none, tr) =>
    ((if env.ackPull then TWI_Error.TWI_None else TWI_Error.TWI_Ack),
      tr ++ [.sclLow, .sdaHigh, .delay, .ackRead env.ackPull, .sclHigh, .delay])

/-- `twi_soft_address` (twi_soft.c lines 140..144): store
`(address << 1) | (0x01 & operation)` into an `unsigned char` (hence the
reduction mod 256) and delegate to `twi_soft_set`. -/
def twi_soft_address (env : TwiEnv) (address : Nat) (operation : TWI_Operation) :
    TWI_Error × List WireEv :=
  twi_soft_set env (((address <<< 1) ||| (0x01 &&& operation.val)) % 256)

/-- `TWI_SOFT_STATUS_TRANSMIT` (twi_soft.h line 141): the "transmission
running" flag bit of the byte-wide bus status `twi_soft_bus_status`. -/
def TWI_SOFT_STATUS_TRANSMIT : Nat := 0x01

/-- `twi_soft_start` (twi_soft.c lines 87..107): set the transmit flag in the
bus status, release SCL, wait, drive SDA low (the START edge), wait, drive
SCL low, and return `TWI_None` unconditionally.  The argument is the current
`twi_soft_bus_status`; the result carries the status code, the new bus
status and the wire events. -/
def twi_soft_start (st : Nat) : TWI_Error × Nat × List WireEv :=
  (TWI_Error.TWI_None, st ||| TWI_SOFT_STATUS_TRANSMIT,
    [.sclHigh, .delay, .sdaLow, .delay, .sclLow])

/-- `twi_soft_stop` (twi_soft.c lines 116..127): drive SCL and SDA low,
wait, release SCL, wait, release SDA (the STOP edge), wait, and clear the
transmit flag (`&= ~TWI_SOFT_STATUS_TRANSMIT` on an `unsigned char`). -/
def twi_soft_stop (st : Nat) : Nat × List WireEv :=
  (st &&& (0xFF ^^^ TWI_SOFT_STATUS_TRANSMIT),
    [.sclLow, .sdaLow, .delay, .sclHigh, .delay, .sdaHigh, .delay])

/-- Arbitration is lost at bit `j` when the transmitted bit is 1 and the
environment pulls SDA low at that bit's arbitration sample. -/
def abortAt (env : TwiEnv) (data j : Nat) : Prop :=
  bitOf data j = true ∧ env.arbPull j = true

instance (env : TwiEnv) (data j : Nat) : Decidable (abortAt env data j) := by
  unfold abortAt; infer_instance

/-- Trace of one completed (non-aborted) bit of `twi_soft_set`. -/
def bitTrace (env : TwiEnv) (data j : Nat) : List WireEv :=
  if bitOf data j then
    [.sclLow, .sdaHigh, .delay, .arbCheck (env.arbPull j), .sclHigh, .stretchWait, .delay]
  else
    [.sclLow, .sdaLow, .delay, .sclHigh, .stretchWait, .delay]

/-- Concatenated traces of `fuel` completed bits starting at index `i`. -/
def bitsTrace (env : TwiEnv) (data : Nat) : Nat → Nat → List WireEv
  | _, 0 => []
  | i, fuel + 1 => bitTrace env data i ++ bitsTrace env data (i + 1) fuel

/-- The `fuel` transmitted bit values starting at index `i`, MSB first. -/
def bitList (data : Nat) : Nat → Nat → List Bool
  | _, 0 => []
  | i, fuel + 1 => bitOf data i :: bitList data (i + 1) fuel

/-- Number of rising clock edges produced by the master in a trace: one per
completed bit transfer (plus one in the acknowledge phase). -/
def countSclHigh (l : List WireEv) : Nat :=
  l.countP fun e => match e with | .sclHigh => true | _ => false

/-- Number of arbitration samples of the SDA input in a trace. -/
def countArbCheck (l : List WireEv) : Nat :=
  l.countP fun e => match e with | .arbCheck _ => true | _ => false

/-- Number of 1 bits among the `fuel` bits of `data` starting at index `i`. -/
def countOnes (data : Nat) : Nat → Nat → Nat
  | _, 0 => 0
  | i, fuel + 1 => (if bitOf data i then 1 else 0) + countOnes data (i + 1) fuel

/-- The sequence of values the master put on SDA in a trace (true for a
release to high, false for a drive to low). -/
def sdaDrives (l : List WireEv) : List Bool :=
  l.filterMap fun e => match e with
    | .sdaHigh => some true
    | .sdaLow => some false
    | _ => none

/-- Whether the event sequence `pat` occurs contiguously inside `l`. -/
def seqOccurs (pat : List WireEv) : List WireEv → Bool
  | [] => pat == []
  | e :: t => ((e :: t).take pat.length == pat) || seqOccurs pat t

/-- A quiet bus environment: no other device ever pulls SDA low. -/
def quietEnv : TwiEnv := ⟨fun _ => false, false⟩

/-- A peer that acknowledges: SDA pulled low at the acknowledge sample. -/
def ackEnv : TwiEnv := ⟨fun _ => false, true⟩

/-- An environment where another master pulls SDA low at bit index 2. -/
def arbEnv : TwiEnv := ⟨fun j => decide (j = 2), false⟩

/-- The cursor state kept by oled.c: `column_current_position` and
`page_current_position`. -/
structure OledState where
  column_current_position : Nat
  page_current_position : Nat
deriving DecidableEq

/-- Byte-level bus transactions emitted by the display layer: the start
condition, the addressing of the slave, each transmitted byte, and the stop
condition. -/
inductive BusEv where
  | start
  | address (a : Nat) (op : TWI_Operation)
  | byte (b : Nat)
  | stop
deriving DecidableEq

/-- `OLED_COLUMN_SIZE` (oled.h): horizontal resolution in pixels. -/
def OLED_COLUMN_SIZE : Nat := 128

/-- `OLED_PAGE_SIZE` (oled.h): pixels per page; also used by oled.c as the
page-count bound (`OLED_ROW_SIZE / OLED_PAGE_SIZE` happens to be equal). -/
def OLED_PAGE_SIZE : Nat := 8

/-- `OLED_ROW_SIZE` (oled.h): vertical resolution in pixels. -/
def OLED_ROW_SIZE : Nat := 64

/-- `OLED_ADDRESS` (oled.h): 7-bit slave address `0x78 >> 1`. -/
def OLED_ADDRESS : Nat := 0x78 >>> 1

/-- `OLED_CONTROL_COMMAND` (oled.h): control byte preceding a command. -/
def OLED_CONTROL_COMMAND : Nat := 0x80

/-- `OLED_CONTROL_DATA` (oled.h): control byte preceding display data. -/
def OLED_CONTROL_DATA : Nat := 0x40

/-- `OLED_CMD_SET_PAGE_START_ADDRESS` (oled.h). -/
def OLED_CMD_SET_PAGE_START_ADDRESS : Nat := 0xB0

/-- `OLED_CMD_SET_LOWER_START_COLUMN_ADDRESS` (oled.h). -/
def OLED_CMD_SET_LOWER_START_COLUMN_ADDRESS : Nat := 0x00

/-- `OLED_CMD_SET_HIGHER_START_COLUMN_ADDRESS` (oled.h). -/
def OLED_CMD_SET_HIGHER_START_COLUMN_ADDRESS : Nat := 0x10

/-- `OLED_START(MODE)` (oled.h): `twi_soft_start()` then
`twi_soft_address(OLED_ADDRESS, MODE)`. -/
def OLED_START (mode : TWI_Operation) : List BusEv :=
  [.start, .address OLED_ADDRESS mode]

/-- `OLED_DATA()` (oled.h): transmit the data control byte. -/
def OLED_DATA : List BusEv := [.byte OLED_CONTROL_DATA]

/-- `OLED_STOP()` (oled.h): `twi_soft_stop()` then the idle delay. -/
def OLED_STOP : List BusEv := [.stop]

/-- `oled_command` (oled.c lines 57..66): transmit the command control byte
and then the command byte. -/
def oled_command (command : Nat) : List BusEv :=
  [.byte OLED_CONTROL_COMMAND, .byte command]

/-- `oled_position` (oled.c lines 128..143): when `column < OLED_COLUMN_SIZE`
and `page < OLED_PAGE_SIZE`, update the cursor and send the three position
commands in one write transaction; otherwise do nothing. -/
def oled_position (s : OledState) (column page : Nat) : OledState × List BusEv :=
  if column < OLED_COLUMN_SIZE ∧ page < OLED_PAGE_SIZE then
    (⟨column, page⟩,
      OLED_START TWI_Operation.TWI_Write
        ++ oled_command (OLED_CMD_SET_PAGE_START_ADDRESS ||| (0x07 &&& page))
        ++ oled_command (OLED_CMD_SET_LOWER_START_COLUMN_ADDRESS ||| (0x0F &&& column))
        ++ oled_command (OLED_CMD_SET_HIGHER_START_COLUMN_ADDRESS ||| (0x0F &&& (column >>> 4)))
        ++ OLED_STOP)
  else
    (s, [])

/-- `oled_page_segment` (oled.c lines 221..243): reject out-of-range input,
otherwise set the cursor to `(column_start, page)`, then in one write
transaction send the data control byte and the bytes
`data[0] .. data[column_stop - column_start]`
(the C loop runs `i = column_start .. column_stop`, advancing the data
pointer once per iteration; reads beyond the supplied list are modelled as
0, mirroring indeterminate memory). -/
def oled_page_segment (s : OledState) (data : List Nat)
    (column_start column_stop page : Nat) : OledState × List BusEv :=
  if page ≥ OLED_PAGE_SIZE ∨ column_stop ≥ OLED_COLUMN_SIZE ∨ column_start ≥ column_stop then
    (s, [])
  else
    let p := oled_position s column_start page
    (p.1, p.2 ++ OLED_START TWI_Operation.TWI_Write ++ OLED_DATA
      ++ (List.range (column_stop - column_start + 1)).map (fun k => .byte (data.getD k 0))
      ++ OLED_STOP)

/-- `oled_page` (oled.c lines 199..206): reject `page >= OLED_PAGE_SIZE`,
otherwise write the full width `0 .. OLED_COLUMN_SIZE - 1` of that page. -/
def oled_page (s : OledState) (data : List Nat) (page : Nat) : OledState × List BusEv :=
  if page ≥ OLED_PAGE_SIZE then
    (s, [])
  else
    oled_page_segment s data 0 (OLED_COLUMN_SIZE - 1) page

/-- The `for (page=0; page < OLED_PAGE_SIZE; page++)` loop of `oled_frame`:
each iteration calls `oled_page(frame + page * OLED_PAGE_SIZE, page)` —
pointer arithmetic modelled as `List.drop (page * OLED_PAGE_SIZE)`. -/
def oled_frame_loop (frame : List Nat) : OledState → Nat → Nat → OledState × List BusEv
  | s, _, 0 => (s, [])
  | s, page, fuel + 1 =>
    let r := oled_page s (frame.drop (page * OLED_PAGE_SIZE)) page
    let rest := oled_frame_loop frame r.1 (page + 1) fuel
    (rest.1, r.2 ++ rest.2)

/-- `oled_frame` (oled.c lines 178..186): `OLED_HOME()` (cursor to (0,0))
then one `oled_page` per page, offsetting the buffer by
`page * OLED_PAGE_SIZE` as the C code does. -/
def oled_frame (s : OledState) (frame : List Nat) : OledState × List BusEv :=
  let h := oled_position s 0 0
  let r := oled_frame_loop frame h.1 0 OLED_PAGE_SIZE
  (r.1, h.2 ++ r.2)

/-- Second definition, following the spec's words, for comparison with
`oled_frame`: "buffer laid out as page-major contiguous blocks", page `p`
receiving the 128 consecutive bytes starting at offset `p * 128`
(offset by `page * OLED_COLUMN_SIZE` instead of `page * OLED_PAGE_SIZE`). -/
def oled_frame_loop_page_major (frame : List Nat) :
    OledState → Nat → Nat → OledState × List BusEv
  | s, _, 0 => (s, [])
  | s, page, fuel + 1 =>
    let r := oled_page s (frame.drop (page * OLED_COLUMN_SIZE)) page
    let rest := oled_frame_loop_page_major frame r.1 (page + 1) fuel
    (rest.1, r.2 ++ rest.2)

/-- Second definition, following the spec's words (spec section 4.3,
`write_full_frame`): reset the cursor to (0,0), then write each page from
the 128-byte block at offset `page * 128` of the buffer. -/
def oled_frame_page_major_spec (s : OledState) (frame : List Nat) : OledState × List BusEv :=
  let h := oled_position s 0 0
  let r := oled_frame_loop_page_major frame h.1 0 OLED_PAGE_SIZE
  (r.1, h.2 ++ r.2)

/-- `oled_clear_page_segment` (oled.c lines 318..340): same guard as
`oled_page_segment`, cursor to `(column_start, page)`, then in one write
transaction the data control byte followed by the zero bytes of the C loop
`for (i=0; i <= column_stop; i++)` — `column_stop + 1` zero bytes. -/
def oled_clear_page_segment (s : OledState) (column_start column_stop page : Nat) :
    OledState × List BusEv :=
  if page ≥ OLED_PAGE_SIZE ∨ column_stop ≥ OLED_COLUMN_SIZE ∨ column_start ≥ column_stop then
    (s, [])
  else
    let p := oled_position s column_start page
    (p.1, p.2 ++ OLED_START TWI_Operation.TWI_Write ++ OLED_DATA
      ++ (List.range (column_stop + 1)).map (fun _ => BusEv.byte 0x00)
      ++ OLED_STOP)

/-- `oled_clear_page` (oled.c): clear the full column range of a page. -/
def oled_clear_page (s : OledState) (page : Nat) : OledState × List BusEv :=
  oled_clear_page_segment s 0 (OLED_COLUMN_SIZE - 1) page

/-- `oled_clear_column` (oled.c lines 353..367): no bounds check of its own;
call `oled_position` (which may silently no-op), then one write transaction
with the data control byte and a single zero byte. -/
def oled_clear_column (s : OledState) (column page : Nat) : OledState × List BusEv :=
  let p := oled_position s column page
  (p.1, p.2 ++ OLED_START TWI_Operation.TWI_Write ++ OLED_DATA
    ++ [BusEv.byte 0x00] ++ OLED_STOP)

/-- The cursor invariant: both components strictly below the hardware
bounds. -/
def cursorInBounds (s : OledState) : Prop :=
  s.column_current_position < OLED_COLUMN_SIZE ∧ s.page_current_position < OLED_PAGE_SIZE

/-- A 16-byte test frame 0,1,...,15 whose pages differ, used to separate
`oled_frame` from the page-major layout the spec describes. -/
def testFrame : List Nat := List.range 16

theorem twi_set_bit_of_not_abort (env : TwiEnv) (data i : Nat)
    (h : ¬ abortAt env data i) :
    twi_soft_set_bit env data i = (none, bitTrace env data i) := by
  unfold twi_soft_set_bit bitTrace
  by_cases hb : bitOf data i
  · have hp : env.arbPull i = false := by
      rcases Bool.eq_false_or_eq_true (env.arbPull i) with h1 | h1
      · exact absurd ⟨hb, h1⟩ h
      · exact h1
    simp [hb, hp]
  · simp [hb]

theorem twi_loop_complete (env : TwiEnv) (data : Nat) :
    ∀ fuel i, (∀ j, j < fuel → ¬ abortAt env data (i + j)) →
      twi_soft_set_loop env data i fuel = (none, bitsTrace env data i fuel) := by
  intro fuel
  induction fuel with
  | zero => intro i _; rfl
  | succ fuel ih =>
    intro i h
    have h0 : ¬ abortAt env data i := by
      have := h 0 (Nat.succ_pos _)
      simpa using this
    have hrec := ih (i + 1) (fun j hj => by
      have := h (j + 1) (Nat.succ_lt_succ hj)
      simpa [Nat.add_assoc, Nat.add_comm 1 j] using this)
    simp [twi_soft_set_loop, twi_set_bit_of_not_abort env data i h0, hrec, bitsTrace]

theorem twi_loop_abort (env : TwiEnv) (data : Nat) :
    ∀ fuel i k, k < fuel → (∀ j, j < k → ¬ abortAt env data (i + j)) →
      abortAt env data (i + k) →
      twi_soft_set_loop env data i fuel =
        (some TWI_Error.TWI_Arbitration,
          bitsTrace env data i k ++ [.sclLow, .sdaHigh, .delay, .arbCheck true]) := by
  intro fuel
  induction fuel with
  | zero => intro i k hk; exact absurd hk (Nat.not_lt_zero k)
  | succ fuel ih =>
    intro i k hk hfirst habort
    cases k with
    | zero =>
      have hb : bitOf data i = true := by simpa using habort.1
      have hp : env.arbPull i = true := by simpa using habort.2
      simp [twi_soft_set_loop, twi_soft_set_bit, hb, hp, bitsTrace]
    | succ k =>
      have h0 : ¬ abortAt env data i := by
        have := hfirst 0 (Nat.succ_pos _)
        simpa using this
      have hrec := ih (i + 1) k (Nat.lt_of_succ_lt_succ hk)
        (fun j hj => by
          have := hfirst (j + 1) (Nat.succ_lt_succ hj)
          simpa [Nat.add_assoc, Nat.add_comm 1 j] using this)
        (by
          have : i + (k + 1) = i + 1 + k := by omega
          simpa [this] using habort)
      simp [twi_soft_set_loop, twi_set_bit_of_not_abort env data i h0, hrec, bitsTrace]

theorem countSclHigh_append (l₁ l₂ : List WireEv) :
    countSclHigh (l₁ ++ l₂) = countSclHigh l₁ + countSclHigh l₂ :=
  List.countP_append _ _ _

theorem countArbCheck_append (l₁ l₂ : List WireEv) :
    countArbCheck (l₁ ++ l₂) = countArbCheck l₁ + countArbCheck l₂ :=
  List.countP_append _ _ _

theorem countSclHigh_bitTrace (env : TwiEnv) (data j : Nat) :
    countSclHigh (bitTrace env data j) = 1 := by
  unfold bitTrace
  by_cases hb : bitOf data j <;> simp [hb, countSclHigh, List.countP_cons]

theorem countArbCheck_bitTrace (env : TwiEnv) (data j : Nat) :
    countArbCheck (bitTrace env data j) = if bitOf data j then 1 else 0 := by
  unfold bitTrace
  by_cases hb : bitOf data j <;> simp [hb, countArbCheck, List.countP_cons]

theorem countSclHigh_bitsTrace (env : TwiEnv) (data : Nat) :
    ∀ fuel i, countSclHigh (bitsTrace env data i fuel) = fuel := by
  intro fuel
  induction fuel with
  | zero => intro i; rfl
  | succ fuel ih =>
    intro i
    simp [bitsTrace, countSclHigh_append, countSclHigh_bitTrace, ih (i + 1)]
    omega

theorem countArbCheck_bitsTrace (env : TwiEnv) (data : Nat) :
    ∀ fuel i, countArbCheck (bitsTrace env data i fuel) = countOnes data i fuel := by
  intro fuel
  induction fuel with
  | zero => intro i; rfl
  | succ fuel ih =>
    intro i
    simp [bitsTrace, countArbCheck_append, countArbCheck_bitTrace, ih (i + 1), countOnes]

theorem ackRead_not_mem_bitTrace (env : TwiEnv) (data j : Nat) (v : Bool) :
    WireEv.ackRead v ∉ bitTrace env data j := by
  unfold bitTrace
  by_cases hb : bitOf data j <;> simp [hb]

theorem ackRead_not_mem_bitsTrace (env : TwiEnv) (data : Nat) :
    ∀ fuel i (v : Bool), WireEv.ackRead v ∉ bitsTrace env data i fuel := by
  intro fuel
  induction fuel with
  | zero => intro i v; simp [bitsTrace]
  | succ fuel ih =>
    intro i v
    simp [bitsTrace]
    exact ⟨ackRead_not_mem_bitTrace env data i v, ih (i + 1) v⟩

theorem sdaDrives_append (l₁ l₂ : List WireEv) :
    sdaDrives (l₁ ++ l₂) = sdaDrives l₁ ++ sdaDrives l₂ :=
  List.filterMap_append _ _ _

theorem sdaDrives_bitTrace (env : TwiEnv) (data j : Nat) :
    sdaDrives (bitTrace env data j) = [bitOf data j] := by
  unfold bitTrace
  by_cases hb : bitOf data j <;> simp [hb, sdaDrives]

theorem sdaDrives_bitsTrace (env : TwiEnv) (data : Nat) :
    ∀ fuel i, sdaDrives (bitsTrace env data i fuel) = bitList data i fuel := by
  intro fuel
  induction fuel with
  | zero => intro i; rfl
  | succ fuel ih =>
    intro i
    simp [bitsTrace, sdaDrives_append, sdaDrives_bitTrace, ih (i + 1), bitList]

theorem twi_set_complete (env : TwiEnv) (data : Nat)
    (h : ∀ j, j < CHAR_BIT → ¬ abortAt env data j) :
    twi_soft_set env data =
      ((if env.ackPull then TWI_Error.TWI_None else TWI_Error.TWI_Ack),
        bitsTrace env data 0 CHAR_BIT
          ++ [.sclLow, .sdaHigh, .delay, .ackRead env.ackPull, .sclHigh, .delay]) := by
  have hl := twi_loop_complete env data CHAR_BIT 0 (fun j hj => by simpa using h j hj)
  simp [twi_soft_set, hl]

/-- C4 (amended): after all 8 data bits are shifted out without arbitration
loss, the acknowledge phase of `twi_soft_set` proceeds: drive clock LOW,
release data, wait, sample the data line — a LOW sample yields `TWI_None`
and a HIGH sample yields `TWI_Ack` — and only then release clock HIGH and
wait, with no clock-stretch busy-wait in the acknowledge phase and no
further bit transfers for that byte after the acknowledge sample. -/
theorem twi_soft_set_ack_phase (env : TwiEnv) (data : Nat)
    (h : ∀ j, j < CHAR_BIT → ¬ abortAt env data j) :
    twi_soft_set env data =
      ((if env.ackPull then TWI_Error.TWI_None else TWI_Error.TWI_Ack),
        bitsTrace env data 0 CHAR_BIT
          ++ [.sclLow, .sdaHigh, .delay, .ackRead env.ackPull, .sclHigh, .delay]) :=
  twi_set_complete env data h

/-- Witness for C4: the amended theorem applied to a NACKing peer
(`ackEnv` with ackPull false models a peer leaving SDA high — here we use
`quietEnv`) and the byte 0xAE. -/
theorem twi_soft_set_ack_phase_w :
    (∀ j, j < CHAR_BIT → ¬ abortAt quietEnv 0xAE j)
    ∧ twi_soft_set quietEnv 0xAE =
      ((if quietEnv.ackPull then TWI_Error.TWI_None else TWI_Error.TWI_Ack),
        bitsTrace quietEnv 0xAE 0 CHAR_BIT
          ++ [.sclLow, .sdaHigh, .delay, .ackRead quietEnv.ackPull, .sclHigh, .delay]) :=
  ⟨by decide, twi_soft_set_ack_phase quietEnv 0xAE (by decide)⟩

/-- Counterexample for C4 as stated: the claim places the acknowledge sample
after releasing the clock HIGH and busy-waiting for clock-stretch release,
i.e. the contiguous event sequence clock-low, data-release, wait,
clock-high, stretch-wait, sample; `twi_soft_set` never emits that sequence
(it samples before raising the clock and never stretch-waits in the
acknowledge phase), although the acknowledge sample does occur. -/
theorem twi_soft_set_ack_order_counterexample :
    seqOccurs [.sclLow, .sdaHigh, .delay, .sclHigh, .stretchWait, .ackRead true]
      (twi_soft_set ackEnv 0xAE).2 = false
    ∧ seqOccurs [.sclLow, .sdaHigh, .delay, .sclHigh, .stretchWait, .ackRead false]
      (twi_soft_set ackEnv 0xAE).2 = false
    ∧ WireEv.ackRead true ∈ (twi_soft_set ackEnv 0xAE).2 := by
  decide

/-- C5: when `twi_soft_set` transmits a 1 bit at position `i` (0-based, MSB
first) and the data line reads LOW at that bit's arbitration check — and no
earlier bit lost arbitration — it returns `TWI_Arbitration` immediately: the
trace ends at that check, only the `i` earlier bits got a clock pulse
(`countSclHigh = i`, so the remaining `7 - i` bits are never clocked), the
acknowledge phase is never entered, and an arbitration check was performed
exactly once per transmitted 1 bit (`countOnes data 0 i` checks for the
completed bits plus the final aborting one). -/
theorem twi_soft_set_arbitration_abort (env : TwiEnv) (data i : Nat)
    (hi : i < CHAR_BIT) (hbit : bitOf data i = true) (hpull : env.arbPull i = true)
    (hfirst : ∀ j, j < i → ¬ abortAt env data j) :
    twi_soft_set env data =
      (TWI_Error.TWI_Arbitration,
        bitsTrace env data 0 i ++ [.sclLow, .sdaHigh, .delay, .arbCheck true])
    ∧ countSclHigh (twi_soft_set env data).2 = i
    ∧ (∀ v, WireEv.ackRead v ∉ (twi_soft_set env data).2)
    ∧ countArbCheck (twi_soft_set env data).2 = countOnes data 0 i + 1 := by
  have hl := twi_loop_abort env data CHAR_BIT 0 i hi
    (fun j hj => by simpa using hfirst j hj)
    (by simpa using And.intro hbit hpull)
  have htr : twi_soft_set env data =
      (TWI_Error.TWI_Arbitration,
        bitsTrace env data 0 i ++ [.sclLow, .sdaHigh, .delay, .arbCheck true]) := by
    simp [twi_soft_set, hl]
  have htail1 : countSclHigh [WireEv.sclLow, .sdaHigh, .delay, .arbCheck true] = 0 := rfl
  have htail2 : countArbCheck [WireEv.sclLow, .sdaHigh, .delay, .arbCheck true] = 1 := rfl
  refine ⟨htr, ?_, ?_, ?_⟩
  · rw [htr, countSclHigh_append, countSclHigh_bitsTrace, htail1]
    omega
  · intro v
    rw [htr]
    simp only [List.mem_append]
    rintro (hmem | hmem)
    · exact ackRead_not_mem_bitsTrace env data i 0 v hmem
    · simp at hmem
  · rw [htr, countArbCheck_append, countArbCheck_bitsTrace, htail2]

/-- Witness for C5: another master pulls SDA low at bit 2 while byte 0x20
(whose bit 2, MSB first, is 1) is transmitted. -/
theorem twi_soft_set_arbitration_abort_w :
    twi_soft_set arbEnv 0x20 =
      (TWI_Error.TWI_Arbitration,
        bitsTrace arbEnv 0x20 0 2 ++ [.sclLow, .sdaHigh, .delay, .arbCheck true])
    ∧ countSclHigh (twi_soft_set arbEnv 0x20).2 = 2
    ∧ (∀ v, WireEv.ackRead v ∉ (twi_soft_set arbEnv 0x20).2)
    ∧ countArbCheck (twi_soft_set arbEnv 0x20).2 = countOnes 0x20 0 2 + 1 :=
  twi_soft_set_arbitration_abort arbEnv 0x20 2 (by decide) (by decide) (by decide)
    (by decide)

/-- C8: `twi_soft_address` composes `(address << 1) | (direction & 1)` and
delegates the byte to `twi_soft_set` (for a 7-bit address the `unsigned
char` truncation is the identity), so on a quiet bus the 8 values put on the
SDA line are exactly the bits of that byte, MSB first, followed by the
acknowledge-phase release; in particular address 0x3C with Write composes
the wire byte 0x78. -/
theorem twi_soft_address_byte (env : TwiEnv) (address : Nat)
    (operation : TWI_Operation) (ha : address < 128)
    (hq : ∀ j, env.arbPull j = false) :
    twi_soft_address env address operation =
      twi_soft_set env ((address <<< 1) ||| (0x01 &&& operation.val))
    ∧ sdaDrives (twi_soft_address env address operation).2 =
        bitList ((address <<< 1) ||| (0x01 &&& operation.val)) 0 CHAR_BIT ++ [true]
    ∧ ((0x3C <<< 1) ||| (0x01 &&& TWI_Operation.TWI_Write.val)) = 0x78 := by
  have hlt : (address <<< 1) ||| (0x01 &&& operation.val) < 256 := by
    have h1 : address <<< 1 < 2 ^ 8 := by
      rw [Nat.shiftLeft_eq]
      omega
    have h2 : 0x01 &&& operation.val < 2 ^ 8 := by
      have := Nat.and_le_left (n := 0x01) (m := operation.val)
      omega
    exact Nat.or_lt_two_pow h1 h2
  have hmod : ((address <<< 1) ||| (0x01 &&& operation.val)) % 256 =
      (address <<< 1) ||| (0x01 &&& operation.val) := Nat.mod_eq_of_lt hlt
  have hdeleg : twi_soft_address env address operation =
      twi_soft_set env ((address <<< 1) ||| (0x01 &&& operation.val)) := by
    rw [twi_soft_address, hmod]
  have hnoab : ∀ j, j < CHAR_BIT →
      ¬ abortAt env ((address <<< 1) ||| (0x01 &&& operation.val)) j := by
    intro j _ hab
    unfold abortAt at hab
    rw [hq j] at hab
    exact Bool.false_ne_true hab.2
  refine ⟨hdeleg, ?_, by decide⟩
  rw [hdeleg, twi_set_complete env _ hnoab]
  simp only [sdaDrives_append, sdaDrives_bitsTrace]
  simp [sdaDrives]

/-- Witness for C8: address 0x3C with the Write direction on a quiet bus. -/
theorem twi_soft_address_byte_w :
    twi_soft_address quietEnv 0x3C TWI_Operation.TWI_Write =
      twi_soft_set quietEnv ((0x3C <<< 1) ||| (0x01 &&& TWI_Operation.TWI_Write.val))
    ∧ sdaDrives (twi_soft_address quietEnv 0x3C TWI_Operation.TWI_Write).2 =
        bitList ((0x3C <<< 1) ||| (0x01 &&& TWI_Operation.TWI_Write.val)) 0 CHAR_BIT ++ [true]
    ∧ ((0x3C <<< 1) ||| (0x01 &&& TWI_Operation.TWI_Write.val)) = 0x78 :=
  twi_soft_address_byte quietEnv 0x3C TWI_Operation.TWI_Write (by decide) (fun _ => rfl)

/-- C9: `twi_soft_start` returns `TWI_None` regardless of the bus status it
starts from, emits the same START events even when the transmit flag is
already set (repeated start), and sets the transmission-in-progress flag;
`twi_soft_stop` clears that flag, so after any start-then-stop sequence the
flag is clear. -/
theorem twi_soft_start_stop_flag (st : Nat) :
    (twi_soft_start st).1 = TWI_Error.TWI_None
    ∧ (twi_soft_start st).2.2 = [.sclHigh, .delay, .sdaLow, .delay, .sclLow]
    ∧ (twi_soft_start st).2.1 &&& TWI_SOFT_STATUS_TRANSMIT = TWI_SOFT_STATUS_TRANSMIT
    ∧ (twi_soft_stop (twi_soft_start st).2.1).1 &&& TWI_SOFT_STATUS_TRANSMIT = 0
    ∧ (twi_soft_stop st).1 &&& TWI_SOFT_STATUS_TRANSMIT = 0 := by
  refine ⟨rfl, rfl, ?_, ?_, ?_⟩
  · show (st ||| 1) &&& 1 = 1
    have h := Nat.testBit_lor st 1 0
    rw [Nat.and_one_is_mod]
    simp only [Nat.testBit_zero, decide_True, Bool.or_true, decide_eq_true_eq] at h
    exact h
  · show ((st ||| 1) &&& 254) &&& 1 = 0
    rw [Nat.land_assoc]
    norm_num
  · show (st &&& 254) &&& 1 = 0
    rw [Nat.land_assoc]
    norm_num

/-- Witness for C9: the theorem at the concrete bus status 0x40. -/
theorem twi_soft_start_stop_flag_w :
    (twi_soft_start 0x40).1 = TWI_Error.TWI_None
    ∧ (twi_soft_start 0x40).2.2 = [.sclHigh, .delay, .sdaLow, .delay, .sclLow]
    ∧ (twi_soft_start 0x40).2.1 &&& TWI_SOFT_STATUS_TRANSMIT = TWI_SOFT_STATUS_TRANSMIT
    ∧ (twi_soft_stop (twi_soft_start 0x40).2.1).1 &&& TWI_SOFT_STATUS_TRANSMIT = 0
    ∧ (twi_soft_stop 0x40).1 &&& TWI_SOFT_STATUS_TRANSMIT = 0 :=
  twi_soft_start_stop_flag 0x40

instance (s : OledState) : Decidable (cursorInBounds s) := by
  unfold cursorInBounds; infer_instance

theorem oled_position_oob (s : OledState) (column page : Nat)
    (h : OLED_COLUMN_SIZE ≤ column ∨ OLED_PAGE_SIZE ≤ page) :
    oled_position s column page = (s, []) := by
  have hneg : ¬ (column < OLED_COLUMN_SIZE ∧ page < OLED_PAGE_SIZE) := by
    intro hc
    rcases h with h | h <;> omega
  unfold oled_position
  rw [if_neg hneg]

theorem oled_position_in (s : OledState) (column page : Nat)
    (hc : column < OLED_COLUMN_SIZE) (hp : page < OLED_PAGE_SIZE) :
    oled_position s column page =
      (⟨column, page⟩,
        [.start, .address OLED_ADDRESS TWI_Operation.TWI_Write,
         .byte OLED_CONTROL_COMMAND,
         .byte (OLED_CMD_SET_PAGE_START_ADDRESS ||| (0x07 &&& page)),
         .byte OLED_CONTROL_COMMAND,
         .byte (OLED_CMD_SET_LOWER_START_COLUMN_ADDRESS ||| (0x0F &&& column)),
         .byte OLED_CONTROL_COMMAND,
         .byte (OLED_CMD_SET_HIGHER_START_COLUMN_ADDRESS ||| (0x0F &&& (column >>> 4))),
         .stop]) := by
  unfold oled_position
  rw [if_pos ⟨hc, hp⟩]
  rfl

theorem oled_page_segment_noop (s : OledState) (data : List Nat)
    (column_start column_stop page : Nat)
    (h : page ≥ OLED_PAGE_SIZE ∨ column_stop ≥ OLED_COLUMN_SIZE ∨ column_start ≥ column_stop) :
    oled_page_segment s data column_start column_stop page = (s, []) := by
  unfold oled_page_segment
  rw [if_pos h]

theorem oled_clear_page_segment_noop (s : OledState)
    (column_start column_stop page : Nat)
    (h : page ≥ OLED_PAGE_SIZE ∨ column_stop ≥ OLED_COLUMN_SIZE ∨ column_start ≥ column_stop) :
    oled_clear_page_segment s column_start column_stop page = (s, []) := by
  unfold oled_clear_page_segment
  rw [if_pos h]

theorem cursorInBounds_oled_position (s : OledState) (column page : Nat)
    (h : cursorInBounds s) : cursorInBounds (oled_position s column page).1 := by
  unfold oled_position
  split
  · next hc => exact ⟨hc.1, hc.2⟩
  · exact h

theorem cursorInBounds_oled_page_segment (s : OledState) (data : List Nat)
    (column_start column_stop page : Nat) (h : cursorInBounds s) :
    cursorInBounds (oled_page_segment s data column_start column_stop page).1 := by
  unfold oled_page_segment
  split
  · exact h
  · exact cursorInBounds_oled_position s column_start page h

theorem cursorInBounds_oled_clear_page_segment (s : OledState)
    (column_start column_stop page : Nat) (h : cursorInBounds s) :
    cursorInBounds (oled_clear_page_segment s column_start column_stop page).1 := by
  unfold oled_clear_page_segment
  split
  · exact h
  · exact cursorInBounds_oled_position s column_start page h

theorem cursorInBounds_oled_clear_column (s : OledState) (column page : Nat)
    (h : cursorInBounds s) : cursorInBounds (oled_clear_column s column page).1 :=
  cursorInBounds_oled_position s column page h

theorem cursorInBounds_oled_page (s : OledState) (data : List Nat) (page : Nat)
    (h : cursorInBounds s) : cursorInBounds (oled_page s data page).1 := by
  unfold oled_page
  split
  · exact h
  · exact cursorInBounds_oled_page_segment s data 0 (OLED_COLUMN_SIZE - 1) page h

theorem cursorInBounds_oled_frame_loop (frame : List Nat) :
    ∀ fuel (s : OledState) (page : Nat), cursorInBounds s →
      cursorInBounds (oled_frame_loop frame s page fuel).1 := by
  intro fuel
  induction fuel with
  | zero => intro s page h; exact h
  | succ fuel ih =>
    intro s page h
    rw [oled_frame_loop]
    exact ih (oled_page s (frame.drop (page * OLED_PAGE_SIZE)) page).1 (page + 1)
      (cursorInBounds_oled_page s (frame.drop (page * OLED_PAGE_SIZE)) page h)

theorem oled_frame_eq (s : OledState) (frame : List Nat) :
    oled_frame s frame =
      ((oled_frame_loop frame (oled_position s 0 0).1 0 OLED_PAGE_SIZE).1,
        (oled_position s 0 0).2
          ++ (oled_frame_loop frame (oled_position s 0 0).1 0 OLED_PAGE_SIZE).2) := rfl

theorem cursorInBounds_oled_frame (s : OledState) (frame : List Nat)
    (h : cursorInBounds s) : cursorInBounds (oled_frame s frame).1 := by
  rw [oled_frame_eq]
  exact cursorInBounds_oled_frame_loop frame OLED_PAGE_SIZE (oled_position s 0 0).1 0
    (cursorInBounds_oled_position s 0 0 h)

/-- C1: `oled_page_segment` with `column_start >= column_stop`, or
`column_stop >= 128`, or `page >= 8` performs zero bus transactions and
leaves all state, including the cursor, unchanged. -/
theorem oled_page_segment_out_of_range_noop (s : OledState) (data : List Nat)
    (column_start column_stop page : Nat)
    (h : column_start ≥ column_stop ∨ column_stop ≥ OLED_COLUMN_SIZE ∨
      page ≥ OLED_PAGE_SIZE) :
    oled_page_segment s data column_start column_stop page = (s, []) :=
  oled_page_segment_noop s data column_start column_stop page (by tauto)

/-- Witness for C1: a degenerate range (`column_start = column_stop = 7`)
from cursor (5, 2) is rejected without any bus traffic. -/
theorem oled_page_segment_out_of_range_noop_w :
    (7 : Nat) ≥ 7
    ∧ oled_page_segment ⟨5, 2⟩ [1, 2, 3] 7 7 0 = (⟨5, 2⟩, []) :=
  ⟨by decide,
    oled_page_segment_out_of_range_noop ⟨5, 2⟩ [1, 2, 3] 7 7 0 (Or.inl (by decide))⟩

/-- C2 (code evaluated at the failing input): for the valid request
`oled_clear_page_segment(10, 20, 0)` the code transmits 21 zero data bytes
(its loop runs `i = 0 .. column_stop`), not the `20 - 10 + 1 = 11` bytes of
the segment the claim describes. -/
theorem oled_clear_page_segment_zero_count :
    (oled_clear_page_segment ⟨0, 0⟩ 10 20 0).2.count (BusEv.byte 0x00) = 21
    ∧ 20 - 10 + 1 = 11 := by
  decide

set_option maxRecDepth 100000 in
/-- C3 (code evaluated at the failing input): on the 16-byte frame
0,1,...,15 the trace of `oled_frame` differs from the page-major layout the
claim describes (page `p` taking the 128 bytes at offset `p * 128`), because
the code offsets the buffer by `page * OLED_PAGE_SIZE = 8 * page`: page 1
starts with byte 8 instead of byte 0 (the padding of the exhausted
buffer). -/
theorem oled_frame_stride_mismatch :
    (oled_frame ⟨0, 0⟩ testFrame).2 ≠ (oled_frame_page_major_spec ⟨0, 0⟩ testFrame).2 := by
  decide

/-- C6: the cursor starts in bounds at (0,0); `oled_position` is a no-op on
out-of-range input; every display operation keeps the cursor inside
`column < 128, page < 8`; and `oled_position(10,3)` followed by
`oled_position(200,3)` leaves the cursor at (10,3). -/
theorem oled_cursor_invariant :
    cursorInBounds ⟨0, 0⟩
    ∧ (∀ (s : OledState) (column page : Nat),
        OLED_COLUMN_SIZE ≤ column ∨ OLED_PAGE_SIZE ≤ page →
        oled_position s column page = (s, []))
    ∧ (∀ (s : OledState) (column page : Nat), cursorInBounds s →
        cursorInBounds (oled_position s column page).1)
    ∧ (∀ (s : OledState) (data : List Nat) (column_start column_stop page : Nat),
        cursorInBounds s →
        cursorInBounds (oled_page_segment s data column_start column_stop page).1)
    ∧ (∀ (s : OledState) (column_start column_stop page : Nat), cursorInBounds s →
        cursorInBounds (oled_clear_page_segment s column_start column_stop page).1)
    ∧ (∀ (s : OledState) (column page : Nat), cursorInBounds s →
        cursorInBounds (oled_clear_column s column page).1)
    ∧ (∀ (s : OledState) (frame : List Nat), cursorInBounds s →
        cursorInBounds (oled_frame s frame).1)
    ∧ (oled_position (oled_position ⟨0, 0⟩ 10 3).1 200 3).1 = ⟨10, 3⟩ :=
  ⟨by decide, oled_position_oob, cursorInBounds_oled_position,
    cursorInBounds_oled_page_segment, cursorInBounds_oled_clear_page_segment,
    cursorInBounds_oled_clear_column, cursorInBounds_oled_frame, by decide⟩

/-- Witness for C6: the out-of-range no-op and the preservation conjuncts
applied at concrete cursors. -/
theorem oled_cursor_invariant_w :
    oled_position ⟨0, 0⟩ 200 3 = (⟨0, 0⟩, [])
    ∧ cursorInBounds (oled_position ⟨5, 2⟩ 10 3).1 :=
  ⟨oled_cursor_invariant.2.1 ⟨0, 0⟩ 200 3 (Or.inl (by decide)),
    oled_cursor_invariant.2.2.1 ⟨5, 2⟩ 10 3 (by decide)⟩

/-- Counterexample for C7 as stated: the claim says exactly one control byte
is sent per transaction; the single transaction of `oled_position(0, 0)`
carries the command control byte 0x80 three times, once per command. -/
theorem oled_position_control_byte_counterexample :
    (oled_position ⟨0, 0⟩ 0 0).2.count (BusEv.byte OLED_CONTROL_COMMAND) = 3
    ∧ ¬ ((oled_position ⟨0, 0⟩ 0 0).2.count (BusEv.byte OLED_CONTROL_COMMAND) = 1) := by
  decide

/-- C7 (amended): data transactions carry the data control byte 0x40 once
per transaction, directly after the addressing and before all payload bytes;
command transactions carry the command control byte 0x80 once before each
command byte (so the three-position-command transaction of `oled_position`
carries three command control bytes); the command-mode value is distinct
from the data-mode value. -/
theorem oled_control_byte_framing :
    (∀ (s : OledState) (column page : Nat),
        column < OLED_COLUMN_SIZE → page < OLED_PAGE_SIZE →
        (oled_position s column page).2 =
          [.start, .address OLED_ADDRESS TWI_Operation.TWI_Write,
           .byte OLED_CONTROL_COMMAND,
           .byte (OLED_CMD_SET_PAGE_START_ADDRESS ||| (0x07 &&& page)),
           .byte OLED_CONTROL_COMMAND,
           .byte (OLED_CMD_SET_LOWER_START_COLUMN_ADDRESS ||| (0x0F &&& column)),
           .byte OLED_CONTROL_COMMAND,
           .byte (OLED_CMD_SET_HIGHER_START_COLUMN_ADDRESS ||| (0x0F &&& (column >>> 4))),
           .stop])
    ∧ (∀ (s : OledState) (data : List Nat) (column_start column_stop page : Nat),
        page < OLED_PAGE_SIZE → column_stop < OLED_COLUMN_SIZE →
        column_start < column_stop →
        (oled_page_segment s data column_start column_stop page).2 =
          (oled_position s column_start page).2
            ++ [.start, .address OLED_ADDRESS TWI_Operation.TWI_Write,
                .byte OLED_CONTROL_DATA]
            ++ (List.range (column_stop - column_start + 1)).map
                (fun k => .byte (data.getD k 0))
            ++ [.stop])
    ∧ OLED_CONTROL_COMMAND ≠ OLED_CONTROL_DATA := by
  refine ⟨?_, ?_, by decide⟩
  · intro s column page hc hp
    rw [oled_position_in s column page hc hp]
  · intro s data column_start column_stop page hp hce hcs
    have hneg : ¬ (page ≥ OLED_PAGE_SIZE ∨ column_stop ≥ OLED_COLUMN_SIZE ∨
        column_start ≥ column_stop) := by
      push_neg
      exact ⟨hp, hce, hcs⟩
    unfold oled_page_segment
    rw [if_neg hneg]
    simp [OLED_START, OLED_DATA, OLED_STOP]

/-- Witness for C7: the framing of `oled_position(5, 1)` and of
`oled_page_segment([1,2,3], 10, 12, 1)`. -/
theorem oled_control_byte_framing_w :
    (oled_position ⟨0, 0⟩ 5 1).2 =
      [.start, .address OLED_ADDRESS TWI_Operation.TWI_Write,
       .byte OLED_CONTROL_COMMAND,
       .byte (OLED_CMD_SET_PAGE_START_ADDRESS ||| (0x07 &&& 1)),
       .byte OLED_CONTROL_COMMAND,
       .byte (OLED_CMD_SET_LOWER_START_COLUMN_ADDRESS ||| (0x0F &&& 5)),
       .byte OLED_CONTROL_COMMAND,
       .byte (OLED_CMD_SET_HIGHER_START_COLUMN_ADDRESS ||| (0x0F &&& (5 >>> 4))),
       .stop]
    ∧ (oled_page_segment ⟨0, 0⟩ [1, 2, 3] 10 12 1).2 =
      (oled_position ⟨0, 0⟩ 10 1).2
        ++ [.start, .address OLED_ADDRESS TWI_Operation.TWI_Write,
            .byte OLED_CONTROL_DATA]
        ++ (List.range (12 - 10 + 1)).map (fun k => .byte (([1, 2, 3] : List Nat).getD k 0))
        ++ [.stop] :=
  ⟨oled_control_byte_framing.1 ⟨0, 0⟩ 5 1 (by decide) (by decide),
    oled_control_byte_framing.2.1 ⟨0, 0⟩ [1, 2, 3] 10 12 1 (by decide) (by decide)
      (by decide)⟩

/-- C10: `oled_clear_column` performs no bounds check of its own: on
out-of-range input the embedded `oled_position` silently no-ops, and the
function still opens a full write transaction (start, address, data control
byte, one zero byte, stop) at the stale cursor — unlike the segment
operations, which perform zero bus transactions on the same input. -/
theorem oled_clear_column_no_bounds_check (s : OledState) (column page : Nat)
    (h : OLED_COLUMN_SIZE ≤ column ∨ OLED_PAGE_SIZE ≤ page) :
    oled_clear_column s column page =
      (s, [.start, .address OLED_ADDRESS TWI_Operation.TWI_Write,
           .byte OLED_CONTROL_DATA, .byte 0x00, .stop])
    ∧ (∀ (data : List Nat) (column_start : Nat),
        oled_page_segment s data column_start column page = (s, []))
    ∧ (∀ column_start : Nat, oled_clear_page_segment s column_start column page = (s, [])) := by
  refine ⟨?_, ?_, ?_⟩
  · unfold oled_clear_column
    rw [oled_position_oob s column page h]
    rfl
  · intro data column_start
    exact oled_page_segment_noop s data column_start column page (by tauto)
  · intro column_start
    exact oled_clear_page_segment_noop s column_start column page (by tauto)

/-- Witness for C10: clearing column 200 of page 3 from cursor (10, 3)
still produces the full five-event transaction, while the segment
operations at the same coordinates do nothing. -/
theorem oled_clear_column_no_bounds_check_w :
    oled_clear_column ⟨10, 3⟩ 200 3 =
      (⟨10, 3⟩, [.start, .address OLED_ADDRESS TWI_Operation.TWI_Write,
                 .byte OLED_CONTROL_DATA, .byte 0x00, .stop])
    ∧ (∀ (data : List Nat) (column_start : Nat),
        oled_page_segment ⟨10, 3⟩ data column_start 200 3 = (⟨10, 3⟩, []))
    ∧ (∀ column_start : Nat,
        oled_clear_page_segment ⟨10, 3⟩ column_start 200 3 = (⟨10, 3⟩, [])) :=
  oled_clear_column_no_bounds_check ⟨10, 3⟩ 200 3 (Or.inl (by decide))
